import Mathlib

/-!
Verification of the core logic of `streamlit_csv.py` (MetSystem dataset UI):
the CSV dataset loader (`load_records_from_csv`), the filter engine
(`record_matches_filters`) and the table-view row projection (`to_row`,
`col_order`), shallowly embedded in Lean.

A pandas cell is modelled by `Cell`: either the NaN placeholder that
`pd.read_csv` produces for an empty or missing cell, or a textual payload
(any non-NaN value, represented by its `str()` coercion).  A Python value
that can sit in a record's `url` field is modelled by `PyVal`: `None`, the
float NaN, or a string; `PyVal.truthy` is Python truthiness on these values
(`None` is falsy, NaN is truthy, a string is truthy iff non-empty).

The GCS signing call `sign_gs_uri` is an external network collaborator; it
enters the embedding as an oracle parameter
`sign : Nat → String → Except String String` (expiry hours and `gs://` URI
in, signed URL or exception text out).
-/

namespace MetSystem

/-- A pandas cell: NaN (empty/missing cell) or a value with its textual form. -/
inductive Cell where
  | nan : Cell
  | str : String → Cell
deriving DecidableEq, Repr

/-- A Python value that may occupy a record's `url` field. -/
inductive PyVal where
  | none : PyVal
  | nan : PyVal
  | str : String → PyVal
deriving DecidableEq, Repr

/-- Python truthiness: `None` falsy, NaN truthy, a string truthy iff non-empty. -/
def PyVal.truthy : PyVal → Bool
  | PyVal.none => false
  | PyVal.nan => true
  | PyVal.str s => s != ""

/-- Python `str.strip()`: drop leading and trailing whitespace, modelled on
the string's character list so that it is kernel-computable. -/
def pyStrip (s : String) : String :=
  String.mk (((s.data.dropWhile Char.isWhitespace).reverse.dropWhile
    Char.isWhitespace).reverse)

/-- Python `str.startswith(pre)`, modelled on the character lists. -/
def pyStartsWith (s pre : String) : Bool :=
  pre.data.isPrefixOf s.data

/-- Python's `<` on strings: strict lexicographic order by code point. -/
def charListLt : List Char → List Char → Bool
  | [], [] => false
  | [], _ :: _ => true
  | _ :: _, [] => false
  | a :: as, b :: bs => if a < b then true else if b < a then false else charListLt as bs

/-- Python's `<=` on strings: reflexive lexicographic order by code point. -/
def charListLe : List Char → List Char → Bool
  | [], _ => true
  | _ :: _, [] => false
  | a :: as, b :: bs => if a < b then true else if b < a then false else charListLe as bs

def pyStrLt (a b : String) : Bool := charListLt a.data b.data

def pyStrLe (a b : String) : Bool := charListLe a.data b.data

/-- First-binding lookup in an association list (Python `dict.get(k)`). -/
def alistFind {α : Type} (l : List (String × α)) (k : String) : Option α :=
  (l.find? (fun p => p.1 == k)).map Prod.snd

/-- A CSV row: the cells of the columns that carry a value; absent columns read NaN. -/
abbrev RowT : Type := List (String × Cell)

/-- `row.get(c)` on a pandas row: the cell under column `c`, NaN when absent. -/
def rowGet (row : RowT) (c : String) : Cell :=
  (alistFind row c).getD Cell.nan

/-- A parsed CSV: its column names and its rows, in file order. -/
structure Csv where
  columns : List String
  rows : List RowT

/-- One dataset record, as built by `load_records_from_csv` for one row. -/
structure Record where
  url : PyVal
  labels_by_set : List (String × List String)
  sign_error : Option String
deriving DecidableEq, Repr

/-- Columns that are not annotation sets (`NON_ANNOTATION_COLS = {"image_path"}`). -/
def NON_ANNOTATION_COLS : List String := ["image_path"]

/-- The per-row body of the loader's loop: resolve the image path (signing
`gs://` strings through the oracle) and collect the per-set labels. -/
def processRow (sign : Nat → String → Except String String) (expiry_hours : Nat)
    (annotation_cols : List String) (row : RowT) : Record :=
  let url0 := rowGet row "image_path"
  let urlErr : PyVal × Option String :=
    match url0 with
    | Cell.str s =>
        if pyStartsWith s "gs://" then
          match sign expiry_hours s with
          | Except.ok u => (PyVal.str u, Option.none)
          | Except.error e => (PyVal.none, Option.some e)
        else (PyVal.str s, Option.none)
    | Cell.nan => (PyVal.nan, Option.none)
  let labels_by_set : List (String × List String) :=
    annotation_cols.filterMap (fun col =>
      match rowGet row col with
      | Cell.nan => Option.none
      | Cell.str v =>
          let sval := pyStrip v
          if sval = "" then Option.none else Option.some (col, [sval]))
  { url := urlErr.1, labels_by_set := labels_by_set, sign_error := urlErr.2 }

/-- `sorted(set(l))`: the lexicographically sorted list of distinct elements. -/
def sortedDedup (l : List String) : List String :=
  List.insertionSort (fun a b => pyStrLe a b = true) l.dedup

/-- `load_records_from_csv`: schema check, per-row record construction,
then the derived vocabulary `all_sets` and `labels_per_set`. -/
def load_records_from_csv (sign : Nat → String → Except String String)
    (csv : Csv) (expiry_hours : Nat) :
    Except String (List Record × List String × List (String × List String)) :=
  if "image_path" ∈ csv.columns then
    let annotation_cols := csv.columns.filter (fun c => !(NON_ANNOTATION_COLS.contains c))
    let records := csv.rows.map (processRow sign expiry_hours annotation_cols)
    let all_sets := sortedDedup (records.flatMap (fun r => r.labels_by_set.map Prod.fst))
    let labels_per_set := all_sets.map (fun s =>
      (s, sortedDedup (records.flatMap (fun r => (alistFind r.labels_by_set s).getD []))))
    Except.ok (records, all_sets, labels_per_set)
  else
    Except.error "CSV must include an 'image_path' column with paths or URLs to images."

/-- `record_matches_filters`: a record passes iff every selected set is
present and carries all of that set's required values. -/
def record_matches_filters (sets_filter : List String)
    (selected_labels_per_set : List (String × List String)) (rec : Record) : Bool :=
  sets_filter.all (fun s =>
    match alistFind rec.labels_by_set s with
    | Option.none => false
    | Option.some _ =>
        let req_vals := (alistFind selected_labels_per_set s).getD []
        if req_vals.isEmpty then true
        else
          let have_vals := (alistFind rec.labels_by_set s).getD []
          req_vals.all (fun v => have_vals.contains v))

/-- Python dict assignment `d[k] = v`: update in place when the key exists
(keeping its position), otherwise append the new binding. -/
def dictInsert (d : List (String × PyVal)) (k : String) (v : PyVal) :
    List (String × PyVal) :=
  if d.any (fun p => p.1 == k) then
    d.map (fun p => if p.1 == k then (k, v) else p)
  else d ++ [(k, v)]

/-- `", ".join(vals) if vals else ""`. -/
def joinVals (vals : List String) : String :=
  if vals.isEmpty then "" else String.intercalate ", " vals

/-- The table view's URL cell: `rec["url"] or ""`. -/
def url_column_value (rec : Record) : PyVal :=
  if rec.url.truthy then rec.url else PyVal.str ""

/-- `to_row`: the table-view projection of one record into a display-row dict. -/
def to_row (show_url : Bool) (all_sets : List String) (rec : Record) :
    List (String × PyVal) :=
  let row : List (String × PyVal) := [("Preview", rec.url)]
  let row := if show_url then dictInsert row "URL" (url_column_value rec) else row
  let row := all_sets.foldl (fun r s =>
    dictInsert r s (PyVal.str (joinVals ((alistFind rec.labels_by_set s).getD [])))) row
  match rec.sign_error with
  | Option.some e => if e != "" then dictInsert row "Signing error" (PyVal.str e) else row
  | Option.none => row

/-- Key membership in a display-row dict. -/
def hasKey (d : List (String × PyVal)) (k : String) : Bool :=
  d.any (fun p => p.1 == k)

/-- `col_order`: the fixed display column order; the signing-error column is
included exactly when some display row carries the key (membership of
`"Signing error"` in the dataframe's columns). -/
def col_order (show_url : Bool) (all_sets : List String)
    (rows : List (List (String × PyVal))) : List String :=
  ["Preview"] ++ (if show_url then ["URL"] else []) ++ all_sets
    ++ (if rows.any (fun r => hasKey r "Signing error") then ["Signing error"] else [])

/-- The grid view's per-record guard `if rec.get("url"):`. -/
def grid_shows_image (rec : Record) : Bool :=
  rec.url.truthy

/-- Prepending one required value `v` for set `s` to a filter constraint. -/
def addRequiredValue (selected : List (String × List String)) (s v : String) :
    List (String × List String) :=
  (s, v :: (alistFind selected s).getD []) :: selected

/-- Python truthiness of a record's signing error (`if rec["__sign_error__"]:`):
present and a non-empty string. -/
def hasTruthySignError (rec : Record) : Bool :=
  match rec.sign_error with
  | Option.some e => e != ""
  | Option.none => false

/-! ## Filter engine: characterization and monotonicity -/

theorem contains_iff_mem (l : List String) (a : String) :
    l.contains a = true ↔ a ∈ l := by
  simp

/-- The matching predicate, characterized: every selected set is a key of the
record and carries all of that set's required values. -/
theorem record_matches_filters_iff (sets_filter : List String)
    (selected : List (String × List String)) (rec : Record) :
    record_matches_filters sets_filter selected rec = true ↔
      ∀ s ∈ sets_filter, (alistFind rec.labels_by_set s).isSome = true ∧
        ∀ v ∈ (alistFind selected s).getD [],
          v ∈ (alistFind rec.labels_by_set s).getD [] := by
  unfold record_matches_filters
  rw [List.all_eq_true]
  apply forall₂_congr
  intro s _
  cases h : alistFind rec.labels_by_set s with
  | none => simp [h]
  | some vs =>
      simp only [h, Option.isSome_some, Option.getD_some, true_and]
      cases hreq : (alistFind selected s).getD [] with
      | nil => simp
      | cons r rs =>
          simp only [List.isEmpty_cons, if_false, Bool.false_eq_true]
          rw [List.all_eq_true]
          apply forall₂_congr
          intro v _
          exact contains_iff_mem vs v

theorem matches_cons_imp (s₀ : String) (sets_filter : List String)
    (selected : List (String × List String)) (rec : Record)
    (h : record_matches_filters (s₀ :: sets_filter) selected rec = true) :
    record_matches_filters sets_filter selected rec = true := by
  simp only [record_matches_filters, List.all_cons, Bool.and_eq_true] at h ⊢
  exact h.2

theorem alistFind_addRequiredValue (selected : List (String × List String))
    (s v s' : String) :
    alistFind (addRequiredValue selected s v) s' =
      if s = s' then Option.some (v :: (alistFind selected s).getD [])
      else alistFind selected s' := by
  by_cases h : s = s'
  · subst h
    simp [addRequiredValue, alistFind, List.find?]
  · have hb : (s == s') = false := by simp [h]
    rw [if_neg h]
    simp [addRequiredValue, alistFind, List.find?, hb]

theorem matches_addval_imp (sets_filter : List String)
    (selected : List (String × List String)) (s v : String) (rec : Record)
    (h : record_matches_filters sets_filter (addRequiredValue selected s v) rec = true) :
    record_matches_filters sets_filter selected rec = true := by
  rw [record_matches_filters_iff] at h ⊢
  intro s' hs'
  refine ⟨(h s' hs').1, fun w hw => (h s' hs').2 w ?_⟩
  rw [alistFind_addRequiredValue]
  by_cases hss : s = s'
  · subst hss
    simp only [if_pos rfl, Option.getD_some]
    exact List.mem_cons_of_mem v hw
  · rw [if_neg hss]
    exact hw

/-- C1: the matching predicate returns true iff for every set name `s` in
`sets_filter`, `s` is a key of the record's `labels_by_set` and every value
in `selected_labels_per_set.get(s, [])` occurs in the record's value
sequence for `s`; in particular an empty `sets_filter` matches every record,
and an empty required-value list only requires the set's presence. -/
theorem C1_record_matches_filters_characterization (sets_filter : List String)
    (selected_labels_per_set : List (String × List String)) (rec : Record) :
    (record_matches_filters sets_filter selected_labels_per_set rec = true ↔
      ∀ s ∈ sets_filter, (alistFind rec.labels_by_set s).isSome = true ∧
        ∀ v ∈ (alistFind selected_labels_per_set s).getD [],
          v ∈ (alistFind rec.labels_by_set s).getD []) ∧
    record_matches_filters [] selected_labels_per_set rec = true := by
  exact ⟨record_matches_filters_iff sets_filter selected_labels_per_set rec, rfl⟩

/-- C7: extending a filter constraint — adding a set name to `sets_filter`,
or adding a required value to a selected set's value list — can only shrink
(or preserve) the matched subset of any record list. -/
theorem C7_filter_monotonicity (records : List Record) (sets_filter : List String)
    (s₀ : String) (selected : List (String × List String)) (s v : String) :
    List.Sublist
      (records.filter (record_matches_filters (s₀ :: sets_filter) selected))
      (records.filter (record_matches_filters sets_filter selected)) ∧
    List.Sublist
      (records.filter (record_matches_filters sets_filter (addRequiredValue selected s v)))
      (records.filter (record_matches_filters sets_filter selected)) := by
  constructor
  · exact List.monotone_filter_right records
      (fun rec h => matches_cons_imp s₀ sets_filter selected rec h)
  · exact List.monotone_filter_right records
      (fun rec h => matches_addval_imp sets_filter selected s v rec h)

/-! ## Loader: per-cell label handling and image-path resolution -/

theorem alistFind_filterMap {β : Type} (f : String → Option β) (cols : List String)
    (k : String) :
    alistFind (cols.filterMap (fun c => (f c).map (fun b => (c, b)))) k =
      if k ∈ cols then f k else Option.none := by
  induction cols with
  | nil => simp [alistFind]
  | cons c cs ih =>
      cases hf : f c with
      | none =>
          have h1 : List.filterMap (fun c => (f c).map (fun b => (c, b))) (c :: cs)
              = List.filterMap (fun c => (f c).map (fun b => (c, b))) cs := by
            simp [List.filterMap_cons, hf]
          rw [h1, ih]
          by_cases hck : k = c
          · subst hck
            by_cases hmem : k ∈ cs <;> simp [hmem, hf]
          · simp [List.mem_cons, hck]
      | some b =>
          have h1 : List.filterMap (fun c => (f c).map (fun b => (c, b))) (c :: cs)
              = (c, b) :: List.filterMap (fun c => (f c).map (fun b => (c, b))) cs := by
            simp [List.filterMap_cons, hf]
          rw [h1]
          by_cases hck : k = c
          · subst hck
            simp [alistFind, List.find?, hf, List.mem_cons]
          · have hck' : ¬c = k := fun h => hck h.symm
            have hb : (c == k) = false := by simp [hck']
            simp only [alistFind, List.find?, hb]
            rw [← alistFind, ih]
            simp [List.mem_cons, hck]

/-- The label cell handler of `processRow`, as a `String → Option` function. -/
theorem processRow_labels_eq (sign : Nat → String → Except String String)
    (expiry_hours : Nat) (annotation_cols : List String) (row : RowT) :
    (processRow sign expiry_hours annotation_cols row).labels_by_set =
      annotation_cols.filterMap (fun c =>
        ((match rowGet row c with
          | Cell.nan => Option.none
          | Cell.str v => if pyStrip v = "" then Option.none
              else Option.some [pyStrip v]) : Option (List String)).map (fun b => (c, b))) := by
  unfold processRow
  simp only []
  congr 1
  funext c
  cases rowGet row c with
  | nan => rfl
  | str v =>
      simp only []
      by_cases hv : pyStrip v = "" <;> simp [hv]

theorem alistFind_processRow_labels (sign : Nat → String → Except String String)
    (expiry_hours : Nat) (annotation_cols : List String) (row : RowT) (col : String) :
    alistFind (processRow sign expiry_hours annotation_cols row).labels_by_set col =
      if col ∈ annotation_cols then
        (match rowGet row col with
         | Cell.nan => Option.none
         | Cell.str v => if pyStrip v = "" then Option.none else Option.some [pyStrip v])
      else Option.none := by
  rw [processRow_labels_eq, alistFind_filterMap]

/-- C4: per row and per non-image-path column, the label set is omitted for a
missing/NaN cell; otherwise the cell is coerced to a string and stripped, a
non-empty result is stored as the singleton value sequence, and an empty
post-strip result omits the set. -/
theorem C4_label_cell_handling (sign : Nat → String → Except String String)
    (expiry_hours : Nat) (annotation_cols : List String) (row : RowT) (col : String)
    (h : col ∈ annotation_cols) :
    alistFind (processRow sign expiry_hours annotation_cols row).labels_by_set col =
      match rowGet row col with
      | Cell.nan => Option.none
      | Cell.str v => if pyStrip v = "" then Option.none else Option.some [pyStrip v] := by
  rw [alistFind_processRow_labels, if_pos h]

/-- C4 witness: at a concrete row, a NaN cell omits the set, a whitespace-only
cell omits the set, and a padded value is stored stripped as a singleton. -/
theorem C4_label_cell_handling_witness :
    alistFind (processRow (fun _ u => Except.ok u) 12 ["species"]
        [("image_path", Cell.str "a.jpg"), ("species", Cell.str " cat ")]).labels_by_set
        "species" = Option.some ["cat"] := by
  rw [C4_label_cell_handling (fun _ u => Except.ok u) 12 ["species"]
    [("image_path", Cell.str "a.jpg"), ("species", Cell.str " cat ")] "species"
    (by decide)]
  decide

/-- The url/sign_error outcome of `processRow`, by case on the image-path cell. -/
theorem processRow_url_spec (sign : Nat → String → Except String String)
    (expiry_hours : Nat) (annotation_cols : List String) (row : RowT) :
    ((processRow sign expiry_hours annotation_cols row).url,
     (processRow sign expiry_hours annotation_cols row).sign_error) =
      match rowGet row "image_path" with
      | Cell.nan => (PyVal.nan, Option.none)
      | Cell.str s =>
          if pyStartsWith s "gs://" then
            match sign expiry_hours s with
            | Except.ok u => (PyVal.str u, Option.none)
            | Except.error e => (PyVal.none, Option.some e)
          else (PyVal.str s, Option.none) := by
  unfold processRow
  cases h : rowGet row "image_path" with
  | nan => simp [h]
  | str s =>
      by_cases hgs : pyStartsWith s "gs://"
      · cases hsign : sign expiry_hours s <;> simp [h, hgs, hsign]
      · simp [h, hgs]

/-- C2: evaluation at the failing input — a row whose image-path cell is
empty/missing.  The loader keeps the pandas NaN as the record's `url`
(a truthy, non-absent value) instead of leaving `url` absent as the spec
requires; `sign_error` is indeed absent. -/
theorem C2_empty_image_path_keeps_nan :
    load_records_from_csv (fun _ u => Except.ok u) ⟨["image_path"], [[]]⟩ 12 =
      Except.ok ([{ url := PyVal.nan, labels_by_set := [], sign_error := Option.none }],
        [], []) ∧
    PyVal.truthy PyVal.nan = true ∧ PyVal.nan ≠ PyVal.none := by
  exact ⟨rfl, rfl, by decide⟩

/-- C9: signing is attempted exactly for image-path cells that are strings
with first characters `gs://`.  Any other string cell is passed through
unchanged, never reaches the signing oracle (the produced record does not
depend on the oracle) and can never produce a `sign_error`; a `gs://` string
cell's outcome is exactly the oracle's. -/
theorem C9_signing_exactly_for_gs (sign sign' : Nat → String → Except String String)
    (expiry_hours : Nat) (annotation_cols : List String) (row : RowT) (s : String)
    (h : rowGet row "image_path" = Cell.str s) :
    (pyStartsWith s "gs://" = false →
      (processRow sign expiry_hours annotation_cols row).url = PyVal.str s ∧
      (processRow sign expiry_hours annotation_cols row).sign_error = Option.none ∧
      processRow sign expiry_hours annotation_cols row =
        processRow sign' expiry_hours annotation_cols row) ∧
    (pyStartsWith s "gs://" = true →
      ((processRow sign expiry_hours annotation_cols row).url,
       (processRow sign expiry_hours annotation_cols row).sign_error) =
        match sign expiry_hours s with
        | Except.ok u => (PyVal.str u, Option.none)
        | Except.error e => (PyVal.none, Option.some e)) := by
  constructor
  · intro hgs
    refine ⟨?_, ?_, ?_⟩ <;> simp [processRow, h, hgs]
  · intro hgs
    cases hsign : sign expiry_hours s <;> simp [processRow, h, hgs, hsign]

/-- C9 witness: an `s3://` image path is passed through unchanged, with no
signing error, and the record does not depend on the signing oracle. -/
theorem C9_signing_exactly_for_gs_witness :
    (processRow (fun _ _ => Except.ok "A") 12 []
        [("image_path", Cell.str "s3://b/x")]).url = PyVal.str "s3://b/x" ∧
    (processRow (fun _ _ => Except.ok "A") 12 []
        [("image_path", Cell.str "s3://b/x")]).sign_error = Option.none ∧
    processRow (fun _ _ => Except.ok "A") 12 [] [("image_path", Cell.str "s3://b/x")] =
      processRow (fun _ _ => Except.error "boom") 12 []
        [("image_path", Cell.str "s3://b/x")] :=
  (C9_signing_exactly_for_gs (fun _ _ => Except.ok "A") (fun _ _ => Except.error "boom")
    12 [] [("image_path", Cell.str "s3://b/x")] "s3://b/x" rfl).1 (by decide)

/-- C10: a row with an empty/missing image-path cell yields a record whose
`url` is the parser's NaN; NaN is truthy, so the grid view's guard and the
table's URL column treat the record as having a renderable URL. -/
theorem C10_nan_url_is_truthy (sign : Nat → String → Except String String)
    (expiry_hours : Nat) (annotation_cols : List String) (row : RowT)
    (h : rowGet row "image_path" = Cell.nan) :
    (processRow sign expiry_hours annotation_cols row).url = PyVal.nan ∧
    grid_shows_image (processRow sign expiry_hours annotation_cols row) = true ∧
    url_column_value (processRow sign expiry_hours annotation_cols row) = PyVal.nan := by
  have h1 : (processRow sign expiry_hours annotation_cols row).url = PyVal.nan := by
    simp [processRow, h]
  refine ⟨h1, ?_, ?_⟩
  · simp [grid_shows_image, h1, PyVal.truthy]
  · simp [url_column_value, h1, PyVal.truthy]

/-- C10 witness: a row with no image-path cell at all. -/
theorem C10_nan_url_is_truthy_witness :
    (processRow (fun _ u => Except.ok u) 12 [] []).url = PyVal.nan ∧
    grid_shows_image (processRow (fun _ u => Except.ok u) 12 [] []) = true ∧
    url_column_value (processRow (fun _ u => Except.ok u) 12 [] []) = PyVal.nan :=
  C10_nan_url_is_truthy (fun _ u => Except.ok u) 12 [] [] rfl

/-- C5: the loader fails with the schema error exactly when the CSV has no
`image_path` column; with the column present it returns a result (and in
particular never raises this error). -/
theorem C5_schema_error_iff_missing_column (sign : Nat → String → Except String String)
    (csv : Csv) (expiry_hours : Nat) :
    ("image_path" ∉ csv.columns →
      load_records_from_csv sign csv expiry_hours =
        Except.error
          "CSV must include an 'image_path' column with paths or URLs to images.") ∧
    ("image_path" ∈ csv.columns →
      ∃ records all_sets labels_per_set,
        load_records_from_csv sign csv expiry_hours =
          Except.ok (records, all_sets, labels_per_set)) := by
  by_cases h : "image_path" ∈ csv.columns
  · refine ⟨fun hc => absurd h hc, fun _ => ?_⟩
    unfold load_records_from_csv
    rw [if_pos h]
    exact ⟨_, _, _, rfl⟩
  · refine ⟨fun _ => ?_, fun hc => absurd hc h⟩
    unfold load_records_from_csv
    rw [if_neg h]

/-- C5 witness: a CSV without the `image_path` column fails with the schema
error. -/
theorem C5_schema_error_iff_missing_column_witness :
    load_records_from_csv (fun _ u => Except.ok u) ⟨["other"], []⟩ 12 =
      Except.error
        "CSV must include an 'image_path' column with paths or URLs to images." :=
  (C5_schema_error_iff_missing_column (fun _ u => Except.ok u) ⟨["other"], []⟩ 12).1
    (by decide)

/-- C6: a successful load returns exactly one record per input row, in input
order: record `i` is computed from row `i` (no drop, duplication or
reordering, signing failures included). -/
theorem C6_row_preservation (sign : Nat → String → Except String String)
    (csv : Csv) (expiry_hours : Nat) (records : List Record)
    (all_sets : List String) (labels_per_set : List (String × List String))
    (h : load_records_from_csv sign csv expiry_hours =
      Except.ok (records, all_sets, labels_per_set)) :
    records.length = csv.rows.length ∧
    ∀ i : Nat, records[i]? = (csv.rows[i]?).map
      (processRow sign expiry_hours
        (csv.columns.filter (fun c => !(NON_ANNOTATION_COLS.contains c)))) := by
  unfold load_records_from_csv at h
  by_cases hc : "image_path" ∈ csv.columns
  · rw [if_pos hc] at h
    simp only [Except.ok.injEq, Prod.mk.injEq] at h
    obtain ⟨hr, -, -⟩ := h
    subst hr
    constructor
    · exact List.length_map _ _
    · intro i
      exact List.getElem?_map _ _ i
  · rw [if_neg hc] at h
    exact absurd h (by simp)

/-- C6 witness: a two-row CSV (one signed, one passed through) produces
exactly its two records in order. -/
theorem C6_row_preservation_witness :
    ([{ url := PyVal.str "S", labels_by_set := [("species", ["cat"])],
        sign_error := Option.none },
      { url := PyVal.str "http://x/b.jpg", labels_by_set := [("species", ["dog"])],
        sign_error := Option.none }] : List Record).length =
      (⟨["image_path", "species"],
        [[("image_path", Cell.str "gs://b/a.jpg"), ("species", Cell.str "cat")],
         [("image_path", Cell.str "http://x/b.jpg"), ("species", Cell.str "dog")]]⟩ :
        Csv).rows.length ∧
    ∀ i : Nat,
      ([{ url := PyVal.str "S", labels_by_set := [("species", ["cat"])],
          sign_error := Option.none },
        { url := PyVal.str "http://x/b.jpg", labels_by_set := [("species", ["dog"])],
          sign_error := Option.none }] : List Record)[i]? =
        ((⟨["image_path", "species"],
          [[("image_path", Cell.str "gs://b/a.jpg"), ("species", Cell.str "cat")],
           [("image_path", Cell.str "http://x/b.jpg"), ("species", Cell.str "dog")]]⟩ :
          Csv).rows[i]?).map
          (processRow (fun _ _ => Except.ok "S") 12
            ((⟨["image_path", "species"],
              [[("image_path", Cell.str "gs://b/a.jpg"), ("species", Cell.str "cat")],
               [("image_path", Cell.str "http://x/b.jpg"), ("species", Cell.str "dog")]]⟩ :
              Csv).columns.filter (fun c => !(NON_ANNOTATION_COLS.contains c)))) :=
  C6_row_preservation (fun _ _ => Except.ok "S")
    ⟨["image_path", "species"],
     [[("image_path", Cell.str "gs://b/a.jpg"), ("species", Cell.str "cat")],
      [("image_path", Cell.str "http://x/b.jpg"), ("species", Cell.str "dog")]]⟩ 12
    _ _ _ rfl

/-! ## The code-point order used by `sorted` -/

theorem charListLe_total : ∀ a b : List Char,
    charListLe a b = true ∨ charListLe b a = true
  | [], _ => Or.inl rfl
  | _ :: _, [] => Or.inr rfl
  | a :: as, b :: bs => by
      rcases lt_trichotomy a b with h | h | h
      · left
        simp [charListLe, h]
      · subst h
        rcases charListLe_total as bs with ih | ih
        · left
          simp [charListLe, ih]
        · right
          simp [charListLe, ih]
      · right
        simp [charListLe, h]

theorem charListLe_trans : ∀ a b c : List Char, charListLe a b = true →
    charListLe b c = true → charListLe a c = true
  | [], _, _, _, _ => rfl
  | _ :: _, [], _, hab, _ => by simp [charListLe] at hab
  | _ :: _, _ :: _, [], _, hbc => by simp [charListLe] at hbc
  | a :: as, b :: bs, c :: cs, hab, hbc => by
      rcases lt_trichotomy a b with h1 | h1 | h1
      · rcases lt_trichotomy b c with h2 | h2 | h2
        · simp [charListLe, lt_trans h1 h2]
        · subst h2
          simp [charListLe, h1]
        · simp [charListLe, h2, asymm h2] at hbc
      · subst h1
        rcases lt_trichotomy a c with h2 | h2 | h2
        · simp [charListLe, h2]
        · subst h2
          simp only [charListLe, lt_self_iff_false, if_false] at hab hbc ⊢
          exact charListLe_trans as bs cs hab hbc
        · simp [charListLe, h2, asymm h2] at hbc
      · simp [charListLe, h1, asymm h1] at hab

theorem charListLt_of_le_of_ne : ∀ a b : List Char, charListLe a b = true →
    ¬a = b → charListLt a b = true
  | [], [], _, hne => absurd rfl hne
  | [], _ :: _, _, _ => rfl
  | _ :: _, [], hle, _ => by simp [charListLe] at hle
  | a :: as, b :: bs, hle, hne => by
      rcases lt_trichotomy a b with h1 | h1 | h1
      · simp [charListLt, h1]
      · subst h1
        simp only [charListLe, lt_self_iff_false, if_false] at hle
        simp only [charListLt, lt_self_iff_false, if_false]
        refine charListLt_of_le_of_ne as bs hle (fun h => hne ?_)
        rw [h]
      · simp [charListLe, h1, asymm h1] at hle

theorem string_data_inj {a b : String} (h : a.data = b.data) : a = b := by
  cases a
  cases b
  exact congrArg String.mk h

theorem pyStrLt_of_le_of_ne {a b : String} (hle : pyStrLe a b = true) (hne : a ≠ b) :
    pyStrLt a b = true :=
  charListLt_of_le_of_ne a.data b.data hle (fun h => hne (string_data_inj h))

instance : IsTotal String (fun a b => pyStrLe a b = true) :=
  ⟨fun a b => charListLe_total a.data b.data⟩

instance : IsTrans String (fun a b => pyStrLe a b = true) :=
  ⟨fun a b c => charListLe_trans a.data b.data c.data⟩

theorem mem_sortedDedup (l : List String) (a : String) : a ∈ sortedDedup l ↔ a ∈ l := by
  unfold sortedDedup
  rw [List.mem_insertionSort, List.mem_dedup]

theorem nodup_sortedDedup (l : List String) : (sortedDedup l).Nodup := by
  unfold sortedDedup
  exact ((List.perm_insertionSort _ _).nodup_iff).mpr (List.nodup_dedup l)

theorem pairwise_lt_sortedDedup (l : List String) :
    List.Pairwise (fun a b => pyStrLt a b = true) (sortedDedup l) := by
  have hs : List.Sorted (fun a b => pyStrLe a b = true) (sortedDedup l) :=
    List.sorted_insertionSort _ _
  have hn := nodup_sortedDedup l
  exact hs.imp₂ (fun a b hle hne => pyStrLt_of_le_of_ne hle hne) hn

/-! ## Loader: derived vocabulary -/

theorem alistFind_isSome_iff {α : Type} (l : List (String × α)) (k : String) :
    (alistFind l k).isSome = true ↔ k ∈ l.map Prod.fst := by
  induction l with
  | nil => simp [alistFind]
  | cons p ps ih =>
      by_cases hpk : p.1 = k
      · simp [alistFind, List.find?, hpk]
      · have hb : (p.1 == k) = false := by simp [hpk]
        simp only [List.map_cons, List.mem_cons, alistFind, List.find?, hb]
        rw [← alistFind]
        have hkp : ¬k = p.1 := fun h => hpk h.symm
        simp [ih, hkp]

theorem alistFind_map_pair {β : Type} (g : String → β) (keys : List String)
    (k : String) :
    alistFind (keys.map (fun s => (s, g s))) k =
      if k ∈ keys then Option.some (g k) else Option.none := by
  induction keys with
  | nil => simp [alistFind]
  | cons c cs ih =>
      by_cases hck : k = c
      · subst hck
        simp [alistFind, List.find?, List.mem_cons]
      · have hck' : ¬c = k := fun h => hck h.symm
        have hb : (c == k) = false := by simp [hck']
        simp only [List.map_cons, alistFind, List.find?, hb]
        rw [← alistFind, ih]
        simp [List.mem_cons, hck]

theorem processRow_label_value_ne_empty (sign : Nat → String → Except String String)
    (expiry_hours : Nat) (annotation_cols : List String) (row : RowT) (s v : String)
    (hv : v ∈ (alistFind (processRow sign expiry_hours annotation_cols row).labels_by_set
      s).getD []) :
    ¬v = "" := by
  rw [alistFind_processRow_labels] at hv
  by_cases hs : s ∈ annotation_cols
  · rw [if_pos hs] at hv
    cases h : rowGet row s with
    | nan =>
        rw [h] at hv
        simp at hv
    | str w =>
        rw [h] at hv
        have hv' : v ∈ (if pyStrip w = "" then (Option.none : Option (List String))
            else Option.some [pyStrip w]).getD [] := hv
        by_cases hw : pyStrip w = ""
        · rw [if_pos hw] at hv'
          simp at hv'
        · rw [if_neg hw] at hv'
          simp only [Option.getD_some, List.mem_singleton] at hv'
          subst hv'
          exact hw
  · rw [if_neg hs] at hv
    simp at hv

theorem mem_keys_processRow_imp (sign : Nat → String → Except String String)
    (expiry_hours : Nat) (annotation_cols : List String) (row : RowT) (s : String)
    (h : (alistFind (processRow sign expiry_hours annotation_cols row).labels_by_set
      s).isSome = true) :
    s ∈ annotation_cols := by
  rw [alistFind_processRow_labels] at h
  by_cases hs : s ∈ annotation_cols
  · exact hs
  · rw [if_neg hs] at h
    simp at h

/-- C3: after a successful load, `all_sets` is the lexicographically sorted
duplicate-free list of exactly those set names keyed by at least one record;
each such name is a non-image-path column of the CSV and the image-path
column is never a member; `labels_per_set` maps each such set to the
lexicographically sorted duplicate-free list of the distinct values occurring
under that set across all records, which contains no empty value. -/
theorem C3_vocabulary_soundness (sign : Nat → String → Except String String)
    (csv : Csv) (expiry_hours : Nat) (records : List Record)
    (all_sets : List String) (labels_per_set : List (String × List String))
    (h : load_records_from_csv sign csv expiry_hours =
      Except.ok (records, all_sets, labels_per_set)) :
    List.Pairwise (fun a b => pyStrLt a b = true) all_sets ∧
    (∀ s, s ∈ all_sets ↔ ∃ r ∈ records, (alistFind r.labels_by_set s).isSome = true) ∧
    (∀ s ∈ all_sets, s ∈ csv.columns ∧ s ≠ "image_path") ∧
    "image_path" ∉ all_sets ∧
    (∀ s ∈ all_sets, ∃ L, alistFind labels_per_set s = Option.some L ∧
      List.Pairwise (fun a b => pyStrLt a b = true) L ∧
      (∀ v, v ∈ L ↔ ∃ r ∈ records, v ∈ (alistFind r.labels_by_set s).getD []) ∧
      (∀ v ∈ L, v ≠ "")) := by
  unfold load_records_from_csv at h
  by_cases hc : "image_path" ∈ csv.columns
  case neg =>
    rw [if_neg hc] at h
    exact absurd h (by simp)
  rw [if_pos hc] at h
  simp only [Except.ok.injEq, Prod.mk.injEq] at h
  obtain ⟨hrec, hsets, hlps⟩ := h
  have hmem : ∀ s, s ∈ all_sets ↔
      ∃ r ∈ records, (alistFind r.labels_by_set s).isSome = true := by
    intro s
    rw [← hrec, ← hsets, mem_sortedDedup, List.mem_flatMap]
    constructor
    · rintro ⟨r, hr, hs⟩
      exact ⟨r, hr, (alistFind_isSome_iff r.labels_by_set s).mpr hs⟩
    · rintro ⟨r, hr, hs⟩
      exact ⟨r, hr, (alistFind_isSome_iff r.labels_by_set s).mp hs⟩
  have hcols : ∀ s ∈ all_sets, s ∈ csv.columns ∧ s ≠ "image_path" := by
    intro s hs
    obtain ⟨r, hr, hsome⟩ := (hmem s).mp hs
    rw [← hrec] at hr
    obtain ⟨row, -, hrow⟩ := List.mem_map.mp hr
    subst hrow
    have hann := mem_keys_processRow_imp _ _ _ _ _ hsome
    have := List.mem_filter.mp hann
    refine ⟨this.1, ?_⟩
    intro hbad
    subst hbad
    simp [NON_ANNOTATION_COLS] at this
  refine ⟨?_, hmem, hcols, ?_, ?_⟩
  · rw [← hsets]
    exact pairwise_lt_sortedDedup _
  · intro hbad
    exact (hcols "image_path" hbad).2 rfl
  · intro s hs
    refine ⟨sortedDedup (records.flatMap
      (fun r => (alistFind r.labels_by_set s).getD [])), ?_, ?_, ?_, ?_⟩
    · rw [← hlps, alistFind_map_pair, hsets, if_pos hs, hrec]
    · exact pairwise_lt_sortedDedup _
    · intro v
      rw [mem_sortedDedup, List.mem_flatMap]
    · intro v hv
      rw [mem_sortedDedup, List.mem_flatMap] at hv
      obtain ⟨r, hr, hvr⟩ := hv
      rw [← hrec] at hr
      obtain ⟨row, -, hrow⟩ := List.mem_map.mp hr
      subst hrow
      exact processRow_label_value_ne_empty _ _ _ _ _ _ hvr

/-- C3 witness: on a concrete two-row CSV the vocabulary is `["species"]`
with values `["cat", "dog"]`; the image-path column is excluded. -/
theorem C3_vocabulary_soundness_witness :
    (∀ s ∈ (["species"] : List String),
      s ∈ (["image_path", "species"] : List String) ∧ s ≠ "image_path") ∧
    "image_path" ∉ (["species"] : List String) := by
  have h := C3_vocabulary_soundness (fun _ _ => Except.ok "S")
    ⟨["image_path", "species"],
     [[("image_path", Cell.str "gs://b/a.jpg"), ("species", Cell.str "cat")],
      [("image_path", Cell.str "http://x/b.jpg"), ("species", Cell.str "dog")]]⟩ 12
    [{ url := PyVal.str "S", labels_by_set := [("species", ["cat"])],
       sign_error := Option.none },
     { url := PyVal.str "http://x/b.jpg", labels_by_set := [("species", ["dog"])],
       sign_error := Option.none }]
    ["species"] [("species", ["cat", "dog"])] rfl
  exact ⟨h.2.2.1, h.2.2.2.1⟩

/-! ## Table projection -/

theorem any_map' {α β : Type} (f : α → β) (l : List α) (p : β → Bool) :
    (l.map f).any p = l.any (fun a => p (f a)) := by
  induction l with
  | nil => rfl
  | cons a as ih => simp [ih]

theorem dictInsert_fresh (d : List (String × PyVal)) (k : String) (v : PyVal)
    (h : hasKey d k = false) : dictInsert d k v = d ++ [(k, v)] := by
  unfold hasKey at h
  simp [dictInsert, h]

theorem foldl_dictInsert_fresh (g : String → PyVal) :
    ∀ (sets : List String) (d : List (String × PyVal)),
    (∀ s ∈ sets, hasKey d s = false) → sets.Nodup →
    sets.foldl (fun r s => dictInsert r s (g s)) d =
      d ++ sets.map (fun s => (s, g s)) := by
  intro sets
  induction sets with
  | nil =>
      intro d _ _
      simp
  | cons s ss ih =>
      intro d hfresh hnd
      rw [List.foldl_cons, dictInsert_fresh d s (g s) (hfresh s (List.mem_cons_self s ss))]
      rw [ih (d ++ [(s, g s)]) ?_ (List.nodup_cons.mp hnd).2]
      · simp
      · intro s' hs'
        have hne : (s == s') = false := by
          have : s ≠ s' := fun h => (List.nodup_cons.mp hnd).1 (h ▸ hs')
          simp [this]
        have hd := hfresh s' (List.mem_cons_of_mem s hs')
        unfold hasKey at hd ⊢
        simp [List.any_append, hd, hne]

/-- Under distinct, non-reserved set names, the display-row dict laid out as a
plain concatenation: Preview, URL when toggled, one column per set, then the
signing-error column exactly when the record's signing error is truthy. -/
theorem to_row_eq (show_url : Bool) (all_sets : List String) (rec : Record)
    (hnd : all_sets.Nodup) (hp : "Preview" ∉ all_sets) (hu : "URL" ∉ all_sets)
    (hs : "Signing error" ∉ all_sets) :
    to_row show_url all_sets rec =
      [("Preview", rec.url)] ++
      (if show_url then [("URL", url_column_value rec)] else []) ++
      all_sets.map (fun s =>
        (s, PyVal.str (joinVals ((alistFind rec.labels_by_set s).getD [])))) ++
      (if hasTruthySignError rec
        then [("Signing error", PyVal.str (rec.sign_error.getD ""))] else []) := by
  unfold to_row
  dsimp only
  have hrow1 : (if show_url then
      dictInsert [("Preview", rec.url)] "URL" (url_column_value rec)
      else [("Preview", rec.url)]) =
      [("Preview", rec.url)] ++ (if show_url then [("URL", url_column_value rec)] else []) := by
    cases show_url with
    | false => simp
    | true =>
        rw [if_pos rfl, if_pos rfl, dictInsert_fresh _ _ _ (by simp [hasKey])]
  rw [hrow1]
  have hfresh : ∀ s ∈ all_sets,
      hasKey ([("Preview", rec.url)] ++
        (if show_url then [("URL", url_column_value rec)] else [])) s = false := by
    intro s hsmem
    have h1 : ("Preview" == s) = false := by
      have : ¬"Preview" = s := fun h => hp (h ▸ hsmem)
      simp [this]
    have h2 : ("URL" == s) = false := by
      have : ¬"URL" = s := fun h => hu (h ▸ hsmem)
      simp [this]
    cases show_url <;> simp [hasKey, h1, h2]
  rw [foldl_dictInsert_fresh _ all_sets _ hfresh hnd]
  have hfresh2 : hasKey (([("Preview", rec.url)] ++
      (if show_url then [("URL", url_column_value rec)] else [])) ++
      all_sets.map (fun s =>
        (s, PyVal.str (joinVals ((alistFind rec.labels_by_set s).getD [])))))
      "Signing error" = false := by
    have hmap : (all_sets.map (fun s =>
        (s, PyVal.str (joinVals ((alistFind rec.labels_by_set s).getD []))))).any
        (fun p => p.1 == "Signing error") = false := by
      rw [any_map', List.any_eq_false]
      intro s hsmem
      have : ¬s = "Signing error" := fun h => hs (h ▸ hsmem)
      simp [this]
    cases show_url <;> simp [hasKey, List.any_append, hmap]
  cases hse : rec.sign_error with
  | none =>
      dsimp only
      simp [hasTruthySignError, hse]
  | some e =>
      dsimp only
      by_cases he : e = ""
      · subst he
        simp [hasTruthySignError, hse]
      · have he' : (e != "") = true := by simp [he]
        rw [he', if_pos rfl, dictInsert_fresh _ _ _ hfresh2]
        simp [hasTruthySignError, hse, he]

theorem hasKey_to_row_signing (show_url : Bool) (all_sets : List String)
    (rec : Record) (hnd : all_sets.Nodup) (hp : "Preview" ∉ all_sets)
    (hu : "URL" ∉ all_sets) (hs : "Signing error" ∉ all_sets) :
    hasKey (to_row show_url all_sets rec) "Signing error" = hasTruthySignError rec := by
  rw [to_row_eq show_url all_sets rec hnd hp hu hs]
  have hmap : (all_sets.map (fun s =>
      (s, PyVal.str (joinVals ((alistFind rec.labels_by_set s).getD []))))).any
      (fun p => p.1 == "Signing error") = false := by
    rw [any_map', List.any_eq_false]
    intro s hsmem
    have : ¬s = "Signing error" := fun h => hs (h ▸ hsmem)
    simp [this]
  cases h : hasTruthySignError rec <;>
    cases show_url <;> simp [hasKey, List.any_append, hmap]

/-- C8 counterexample: three concrete inputs refuting the claim as stated,
one per failure mode the amendment must guard against.
(1) A `gs://` row whose signing fails with an empty exception string yields
a record that has a signing error (`sign_error` is present), yet the
produced table has no signing-error column — refuting the claimed
"if and only if", which holds only for non-empty error strings.
(2) A set named `Preview` makes the dict assignment in `to_row` overwrite
the preview column in place: the display row has a single column holding the
comma-joined labels instead of the claimed two columns (preview with the
record's url, then the set column) — so set names must be distinct from the
reserved labels.
(3) A duplicated set name collapses into one column instead of the claimed
one-column-per-set — so set names must be pairwise distinct. -/
theorem C8_signing_column_counterexample :
    (load_records_from_csv (fun _ _ => Except.error "")
        ⟨["image_path"], [[("image_path", Cell.str "gs://b/x")]]⟩ 12 =
      Except.ok ([{ url := PyVal.none, labels_by_set := [],
                    sign_error := Option.some "" }], [], []) ∧
     ({ url := PyVal.none, labels_by_set := [],
        sign_error := Option.some "" } : Record).sign_error.isSome = true ∧
     col_order false []
       [to_row false [] { url := PyVal.none, labels_by_set := [],
                          sign_error := Option.some "" }] = ["Preview"]) ∧
    to_row false ["Preview"]
      { url := PyVal.str "u", labels_by_set := [("Preview", ["x"])],
        sign_error := Option.none } = [("Preview", PyVal.str "x")] ∧
    to_row false ["a", "a"]
      { url := PyVal.str "u", labels_by_set := [("a", ["x"])],
        sign_error := Option.none } =
      [("Preview", PyVal.str "u"), ("a", PyVal.str "x")] := by
  exact ⟨⟨rfl, rfl, rfl⟩, rfl, rfl⟩

/-- C8 (amended): for any filtered record list, with set names pairwise
distinct and distinct from the reserved labels Preview, URL and Signing
error, the projection yields one display row per record; each row's columns
are, in order: preview, the raw url column exactly when toggled on, every set
of `all_sets` in order with comma-joined values or the empty string when the
set is absent, then a signing-error column exactly when this record carries a
non-empty signing-error string; and the table's column order carries the
signing-error column if and only if at least one displayed record has a
non-empty signing-error string. -/
theorem C8_projection_columns (show_url : Bool) (all_sets : List String)
    (filtered : List Record) (hnd : all_sets.Nodup) (hp : "Preview" ∉ all_sets)
    (hu : "URL" ∉ all_sets) (hs : "Signing error" ∉ all_sets) :
    (filtered.map (to_row show_url all_sets)).length = filtered.length ∧
    (∀ rec ∈ filtered,
      to_row show_url all_sets rec =
        [("Preview", rec.url)] ++
        (if show_url then [("URL", url_column_value rec)] else []) ++
        all_sets.map (fun s =>
          (s, PyVal.str (joinVals ((alistFind rec.labels_by_set s).getD [])))) ++
        (if hasTruthySignError rec
          then [("Signing error", PyVal.str (rec.sign_error.getD ""))] else [])) ∧
    col_order show_url all_sets (filtered.map (to_row show_url all_sets)) =
      ["Preview"] ++ (if show_url then ["URL"] else []) ++ all_sets ++
        (if filtered.any hasTruthySignError then ["Signing error"] else []) := by
  refine ⟨List.length_map _ _, fun rec _ => to_row_eq show_url all_sets rec hnd hp hu hs, ?_⟩
  have hany : (filtered.map (to_row show_url all_sets)).any
      (fun r => hasKey r "Signing error") = filtered.any hasTruthySignError := by
    rw [any_map']
    congr 1
    funext rec
    exact hasKey_to_row_signing show_url all_sets rec hnd hp hu hs
  unfold col_order
  rw [hany]

/-- C8 witness: a two-record display (one with a non-empty signing error)
with the URL column toggled on produces the full column order. -/
theorem C8_projection_columns_witness :
    col_order true ["species"]
      (([{ url := PyVal.str "u", labels_by_set := [("species", ["cat"])],
           sign_error := Option.some "boom" },
         { url := PyVal.none, labels_by_set := [],
           sign_error := Option.none }] : List Record).map (to_row true ["species"])) =
      ["Preview", "URL", "species", "Signing error"] :=
  (C8_projection_columns true ["species"]
    [{ url := PyVal.str "u", labels_by_set := [("species", ["cat"])],
       sign_error := Option.some "boom" },
     { url := PyVal.none, labels_by_set := [], sign_error := Option.none }]
    (by decide) (by decide) (by decide) (by decide)).2.2

end MetSystem
